import Mathlib

/-!
Verification of the pxp-agent module-dispatch core.

This file shallowly embeds the pieces of the agent that the specification
talks about:

* `ExternalModule` loading (metadata probing, schema registration) and
  action execution, from `lib/src/external_module.cc`;
* the outbound response builders, from `lib/src/pxp_connector.cc`;
* the `expandAsDoneByShell` helper, from the common file utilities.

External library boundaries (the leatherman JSON container, the
cpp-pcp-client `Schema`/`Validator`, POSIX `wordexp`, the OS process
runner and the filesystem) are modelled as explicit oracle parameters:
each embedded function takes the oracle's behaviour as an argument, and
every theorem quantifies over it, recording the library facts it needs as
hypotheses.
-/

namespace PXPAgent

/-- JSON values, the shallow counterpart of leatherman's `JsonContainer`. -/
inductive Json where
  | null : Json
  | bool (b : Bool) : Json
  | num (n : Int) : Json
  | str (s : String) : Json
  | arr (elems : List Json) : Json
  | obj (fields : List (String × Json)) : Json

/-- Association-list lookup used both for JSON object members and for the
schema maps held by a `Validator`. -/
def lookupField : List (String × Json) → String → Option Json
  | [], _ => none
  | (k, v) :: rest, key => if k = key then some v else lookupField rest key

/-- Embeds `JsonContainer::get<JsonContainer>(key)`: `some` iff the root is an
object containing `key` (a missing key raises `data_key_error`). -/
def Json.get? : Json → String → Option Json
  | .obj fields, key => lookupField fields key
  | _, _ => none

/-- Embeds `JsonContainer::get<std::string>(key)`: succeeds only when the entry
exists and is a JSON string (otherwise `data_error`). -/
def Json.getString? (j : Json) (key : String) : Option String :=
  match j.get? key with
  | some (.str s) => some s
  | _ => none

/-- Embeds `JsonContainer::get<std::vector<JsonContainer>>(key)`: succeeds only
when the entry exists and is a JSON array (otherwise `data_error`). -/
def Json.getArray? (j : Json) (key : String) : Option (List Json) :=
  match j.get? key with
  | some (.arr xs) => some xs
  | _ => none

/-- Embeds `JsonContainer::includes(key)`. -/
def Json.includes (j : Json) (key : String) : Bool :=
  (j.get? key).isSome

/-- Embeds `JsonContainer::empty()`: true for an object or array with no
members; all scalar roots report non-empty. -/
def Json.isEmpty : Json → Bool
  | .obj [] => true
  | .arr [] => true
  | _ => false

/-- Embeds `Module::LoadingError` (carries the exception message). -/
structure LoadingError where
  msg : String

/-- Embeds `Module::ProcessingError` (carries the exception message). -/
structure ProcessingError where
  msg : String

/-- Result of `leatherman::execution::execute`: captured stdout, captured
stderr, and the exit code. -/
structure ExecResult where
  output : String
  error : String
  exit_code : Int

/-- Embeds `RequestType` from the PXP request. -/
inductive RequestType where
  | Blocking
  | NonBlocking
deriving DecidableEq

/-- The fields of `ActionRequest` that the embedded code consults. -/
structure ActionRequest where
  id : String
  transaction_id : String
  sender : String
  module : String
  action : String
  rtype : RequestType
  params : Json
  results_dir : String

/-- Modelled from the spec: `pretty_label` is the computed string
`"<type> request <id> for <module> <action>"` (the `ActionRequest`
implementation is not among the sources at hand; only log and error
messages depend on it). -/
def ActionRequest.prettyLabel (r : ActionRequest) : String :=
  (match r.rtype with
   | .Blocking => "blocking"
   | .NonBlocking => "non-blocking")
  ++ " request " ++ r.id ++ " for " ++ r.module ++ " " ++ r.action

/-- Embeds `ActionOutcome` with its C++ constructor field order
`(exit_code, stderr, stdout, results)`. -/
structure ActionOutcome where
  exit_code : Int
  stderr_text : String
  stdout_text : String
  results : Json

/-- A JSON text parser oracle: the behaviour of the
`JsonContainer { std::string }` constructor, whose failure
(`data_parse_error`) carries an explanatory message. -/
abbrev JsonParser := String → Except String Json

/-- Substring test used to state "the message contains ...". -/
def strContains (s pat : String) : Bool :=
  decide (pat.data <:+: s.data)

/-- Embeds `ExternalModule::processRequestOutcome`: parse the captured stdout
(substituting the literal text `null` when stdout is empty, since the
`JsonContainer` constructor does not accept empty strings) and either
return an `ActionOutcome` or raise a `ProcessingError` distinguishing the
empty-stdout and invalid-JSON sub-cases. -/
def processRequestOutcome (pj : JsonParser) (request : ActionRequest)
    (exit_code : Int) (out_txt err_txt : String) :
    Except ProcessingError ActionOutcome :=
  match pj (if out_txt.isEmpty then "null" else out_txt) with
  | .ok results => .ok ⟨exit_code, err_txt, out_txt, results⟩
  | .error _ =>
      let what :=
        if out_txt.isEmpty then
          "The task executed for the " ++ request.prettyLabel
            ++ " returned no output on stdout - stderr:"
        else
          "The task executed for the " ++ request.prettyLabel
            ++ " returned invalid JSON on stdout - stderr:"
      .error ⟨what ++ (if err_txt.isEmpty then " (empty)" else "\n" ++ err_txt)⟩

/-- Oracle for the metadata validator built by `getMetadataValidator`:
`none` means the document satisfies the module-metadata schema, `some e`
is the `validation_error` message `e.what()`. -/
abbrev MetadataValidator := Json → Option String

/-- Embeds `ExternalModule::getMetadata`, applied to the result of the
metadata-probe execution: a non-empty stderr aborts loading; then stdout
must parse as JSON; then the document must satisfy the module-metadata
schema. -/
def getMetadata (pj : JsonParser) (vm : MetadataValidator)
    (exec : ExecResult) : Except LoadingError Json :=
  if ¬ exec.error.isEmpty then
    .error ⟨"failed to load external module metadata"⟩
  else
    match pj exec.output with
    | .error e => .error ⟨"metadata is not in a valid JSON format: " ++ e⟩
    | .ok metadata =>
        match vm metadata with
        | some e => .error ⟨"metadata validation failure: " ++ e⟩
        | none => .ok metadata

/-- Oracle for the `PCPClient::Schema { name, json }` constructor: `true`
iff constructing a schema from this JSON succeeds (failure raises
`schema_error`). -/
abbrev SchemaOk := Json → Bool

/-- The mutable state of an `ExternalModule` object: its derived name,
its configuration document, and the three validators' schema maps
(`config_validator_`, `input_validator_`, `results_validator_`), each a
map from schema name to the schema's defining JSON. -/
structure ExtModState where
  module_name : String
  config : Json
  config_validator : List (String × Json)
  actions : List String
  input_validator : List (String × Json)
  results_validator : List (String × Json)

/-- Embeds `PCPClient::Validator::includesSchema`. -/
def includesSchema (validator : List (String × Json)) (name : String) : Bool :=
  (lookupField validator name).isSome

/-- Embeds `ExternalModule::registerConfiguration`: instantiate a schema named
after the module from the metadata's `configuration` entry and register
it in `config_validator_`; a `schema_error` becomes a `LoadingError`. -/
def registerConfiguration (ok : SchemaOk) (st : ExtModState)
    (config_metadata : Json) : Except LoadingError ExtModState :=
  if ok config_metadata then
    .ok { st with
          config_validator := (st.module_name, config_metadata) :: st.config_validator }
  else
    .error ⟨"invalid configuration schema of module " ++ st.module_name⟩

/-- Embeds `ExternalModule::registerAction`: read the action's `name` (a
`data_error` here escapes to the constructor's catch), instantiate the
input and results schemas from the `input` and `results` entries, then
append the action name and register both schemas under it.  A
`schema_error` (bad schema JSON, or a duplicate name rejected by
`Validator::registerSchema`) yields the "invalid schemas" `LoadingError`;
a `data_error` on `input`/`results` yields the "invalid metadata"
`LoadingError`. -/
def registerAction (ok : SchemaOk) (st : ExtModState) (action : Json) :
    Except LoadingError ExtModState :=
  match action.getString? "name" with
  | none => .error ⟨"invalid metadata of module " ++ st.module_name⟩
  | some action_name =>
      match action.get? "input", action.get? "results" with
      | some input_schema_json, some results_schema_json =>
          if ok input_schema_json ∧ ok results_schema_json then
            if includesSchema st.input_validator action_name
                ∨ includesSchema st.results_validator action_name then
              .error ⟨"invalid schemas of '" ++ st.module_name ++ " "
                      ++ action_name ++ "'"⟩
            else
              .ok { st with
                    actions := st.actions ++ [action_name],
                    input_validator :=
                      (action_name, input_schema_json) :: st.input_validator,
                    results_validator :=
                      (action_name, results_schema_json) :: st.results_validator }
          else
            .error ⟨"invalid schemas of '" ++ st.module_name ++ " "
                    ++ action_name ++ "'"⟩
      | _, _ =>
          .error ⟨"invalid metadata of '" ++ st.module_name ++ " "
                  ++ action_name ++ "'"⟩

/-- The loop body of `ExternalModule::registerActions`. -/
def registerActionsList (ok : SchemaOk) (st : ExtModState) :
    List Json → Except LoadingError ExtModState
  | [] => .ok st
  | action :: rest =>
      match registerAction ok st action with
      | .ok st' => registerActionsList ok st' rest
      | .error e => .error e

/-- Embeds `ExternalModule::registerActions`: iterate over the metadata's
`actions` array (a `data_error` on the array itself escapes to the
constructor's catch, which produces the "invalid metadata of module"
`LoadingError`). -/
def registerActions (ok : SchemaOk) (st : ExtModState) (metadata : Json) :
    Except LoadingError ExtModState :=
  match metadata.getArray? "actions" with
  | none => .error ⟨"invalid metadata of module " ++ st.module_name⟩
  | some actions => registerActionsList ok st actions

/-- The two-argument `ExternalModule` constructor: probe the metadata,
register the configuration schema when the metadata carries a
`configuration` entry, then register every advertised action.  Any
failure throws, so the object is never constructed: the `Except` error
carries no module state. -/
def externalModuleCtor (pj : JsonParser) (vm : MetadataValidator)
    (ok : SchemaOk) (module_name : String) (config : Json)
    (exec : ExecResult) : Except LoadingError ExtModState :=
  match getMetadata pj vm exec with
  | .error e => .error e
  | .ok metadata =>
      match
        (match metadata.get? "configuration" with
         | some config_metadata =>
             registerConfiguration ok
               ⟨module_name, config, [], [], [], []⟩ config_metadata
         | none => .ok ⟨module_name, config, [], [], [], []⟩) with
      | .error e => .error e
      | .ok st => registerActions ok st metadata

/-- Oracle for `PCPClient::Validator::validate(document, schema)`:
`true` iff the document satisfies the schema. -/
abbrev Validates := Json → Json → Bool

/-- Embeds `ExternalModule::validateConfiguration`: validate the stored config
against the schema registered under the module's name, if one is
registered; otherwise skip validation.  A failure raises
`validation_error`. -/
def validateConfiguration (va : Validates) (st : ExtModState) :
    Except String Unit :=
  match lookupField st.config_validator st.module_name with
  | some schema => if va st.config schema then .ok () else .error "validation failure"
  | none => .ok ()

/-- Modelled from the spec: the agent's module loader (its source is not
among the files at hand) constructs the `ExternalModule` with the
supplied config and then calls `validateConfiguration`, turning a
configuration-validation failure into a `LoadingError` before the module
is made visible in the registry. -/
def loadExternalModule (pj : JsonParser) (vm : MetadataValidator)
    (ok : SchemaOk) (va : Validates) (module_name : String) (config : Json)
    (exec : ExecResult) : Except LoadingError ExtModState :=
  match externalModuleCtor pj vm ok module_name config exec with
  | .error e => .error e
  | .ok st =>
      match validateConfiguration va st with
      | .ok _ => .ok st
      | .error e => .error ⟨e⟩

/-- Filesystem oracle for the non-blocking result files: which paths
exist, and what reading a path yields (`none` models a failed
`leatherman::file_util::read`, which leaves the output string as it
was). -/
structure FileSystem where
  pathExists : String → Bool
  readFile : String → Option String

/-- Embeds `ExternalModule::readNonBlockingOutcome`: read the stderr file if it
exists (a read failure is logged and ignored, leaving stderr empty); a
missing stdout file yields empty stdout, but a stdout file that exists
and cannot be read raises `ProcessingError { "failed to read" }`.
Returns the `(out_txt, err_txt)` pair. -/
def readNonBlockingOutcome (fs : FileSystem) (out_file err_file : String) :
    Except ProcessingError (String × String) :=
  let err_txt :=
    if fs.pathExists err_file then
      match fs.readFile err_file with
      | some txt => txt
      | none => ""
    else ""
  if ¬ fs.pathExists out_file then
    .ok ("", err_txt)
  else
    match fs.readFile out_file with
    | none => .error ⟨"failed to read"⟩
    | some out_txt => .ok (out_txt, err_txt)

/-- Embeds `EXTERNAL_MODULE_FILE_ERROR_EC`. -/
def EXTERNAL_MODULE_FILE_ERROR_EC : Int := 5

/-- Embeds `ExternalModule::getActionArguments`: an object with the request's
params under `input`, the module config under `configuration` when the
config is non-empty, and, for non-blocking requests, an `output_files`
object naming the three result files inside the request's results
directory. -/
def getActionArguments (config : Json) (request : ActionRequest) : Json :=
  .obj (("input", request.params)
    :: (if ¬ config.isEmpty then [("configuration", config)] else [])
    ++ (if request.rtype = RequestType.NonBlocking then
          [("output_files", Json.obj
            [("stdout", .str (request.results_dir ++ "/stdout")),
             ("stderr", .str (request.results_dir ++ "/stderr")),
             ("exitcode", .str (request.results_dir ++ "/exitcode"))])]
        else []))

/-- Embeds `ExternalModule::callNonBlockingAction`, applied to the result of
the child execution: exit code 5 (reserved for a child that failed to
write its output files) raises `ProcessingError` immediately, before the
result files are consulted; otherwise the outcome is read back from
`<results_dir>/stdout` and `<results_dir>/stderr` and parsed. -/
def callNonBlockingAction (pj : JsonParser) (fs : FileSystem)
    (request : ActionRequest) (exec : ExecResult) :
    Except ProcessingError ActionOutcome :=
  let out_file := request.results_dir ++ "/stdout"
  let err_file := request.results_dir ++ "/stderr"
  if exec.exit_code = EXTERNAL_MODULE_FILE_ERROR_EC then
    .error ⟨"failed to write output on file"⟩
  else
    match readNonBlockingOutcome fs out_file err_file with
    | .error e => .error e
    | .ok (out_txt, err_txt) =>
        processRequestOutcome pj request exec.exit_code out_txt err_txt

/-- Embeds `ExternalModule::callBlockingAction`, applied to the result of the
child execution: the captured stdout/stderr/exit code go straight to
outcome parsing. -/
def callBlockingAction (pj : JsonParser) (request : ActionRequest)
    (exec : ExecResult) : Except ProcessingError ActionOutcome :=
  processRequestOutcome pj request exec.exit_code exec.output exec.error

/-- The data document of `PXPConnector::sendPXPError`. -/
def pxpErrorData (request : ActionRequest) (description : String) : Json :=
  .obj [("transaction_id", .str request.transaction_id),
        ("id", .str request.id),
        ("description", .str description)]

/-- The data document of `PXPConnector::sendBlockingResponse`. -/
def blockingResponseData (request : ActionRequest) (results : Json) : Json :=
  .obj [("transaction_id", .str request.transaction_id),
        ("results", results)]

/-- The data document of `PXPConnector::sendNonBlockingResponse`. -/
def nonBlockingResponseData (request : ActionRequest) (results : Json)
    (job_id : String) : Json :=
  .obj [("transaction_id", .str request.transaction_id),
        ("job_id", .str job_id),
        ("results", results)]

/-- The data document of `PXPConnector::sendProvisionalResponse`. -/
def provisionalResponseData (request : ActionRequest) : Json :=
  .obj [("transaction_id", .str request.transaction_id)]

/-- Oracle for POSIX `wordexp`: `none` models a non-zero return (the
expansion failed), `some ws` the list of expanded words. -/
abbrev WordExp := String → Option (List String)

/-- Embeds `Cthun::Common::FileUtils::expandAsDoneByShell`: return the empty
string when `wordexp` fails, and otherwise `we_wordv[0]`, the first word
of the expansion.  When the expansion succeeds with zero words,
`we_wordv[0]` is a null pointer and constructing `std::string` from it
is undefined behaviour, modelled as `none`. -/
def expandAsDoneByShell (we : WordExp) (txt : String) : Option String :=
  match we txt with
  | none => some ""
  | some (w :: _) => some w
  | some [] => none

/-! ## Concrete oracles and inputs used by the witnesses -/

/-- A JSON parser that accepts exactly the text `null`, as the real
library does on that input. -/
def pjW : JsonParser :=
  fun s => if s = "null" then .ok Json.null else .error "expected null"

/-- A JSON parser that rejects every text. -/
def pjNone : JsonParser := fun _ => .error "bad input"

/-- A concrete action request. -/
def reqW : ActionRequest :=
  ⟨"42", "tx42", "client01", "echo", "reflect", RequestType.Blocking,
   Json.null, ""⟩

/-- A concrete word-expansion oracle: fails on the empty string,
otherwise expands to the input followed by a second word. -/
def weW : WordExp :=
  fun t => if t.isEmpty then none else some [t, "more"]

/-- A schema-construction oracle that accepts every JSON document. -/
def okW : SchemaOk := fun _ => true

/-- A metadata validator that accepts every document. -/
def vmW : MetadataValidator := fun _ => none

/-- A configuration validator that accepts every document. -/
def vaW : Validates := fun _ _ => true

/-- A concrete action entry of a metadata document. -/
def actW : Json :=
  .obj [("name", .str "a1"), ("input", .obj []), ("results", .obj [])]

/-- A concrete metadata document without a `configuration` entry. -/
def metaW : Json :=
  .obj [("description", .str "m"), ("actions", .arr [actW])]

/-- A parser mapping the probe output `meta` to `metaW`. -/
def pjMetaW : JsonParser :=
  fun s => if s = "meta" then .ok metaW else .error "bad"

/-- The probe execution result feeding `pjMetaW`. -/
def execW : ExecResult := ⟨"meta", "", 0⟩

/-- The module state produced by loading `metaW`. -/
def stW : ExtModState :=
  ⟨"modW", Json.null, [], ["a1"], [("a1", .obj [])], [("a1", .obj [])]⟩

/-- A concrete configuration schema. -/
def csW : Json := .obj [("type", .str "object")]

/-- A concrete metadata document carrying a `configuration` entry. -/
def metaCfgW : Json :=
  .obj [("description", .str "m"), ("configuration", csW),
        ("actions", .arr [actW])]

/-- A parser mapping the probe output `metacfg` to `metaCfgW`. -/
def pjMetaCfgW : JsonParser :=
  fun s => if s = "metacfg" then .ok metaCfgW else .error "bad"

/-- The probe execution result feeding `pjMetaCfgW`. -/
def execCfgW : ExecResult := ⟨"metacfg", "", 0⟩

/-- A concrete non-empty module configuration. -/
def cfgW : Json := .obj [("a", Json.null)]

/-- The module state produced by loading `metaCfgW` with config `cfgW`. -/
def stCfgW : ExtModState :=
  ⟨"modC", cfgW, [("modC", csW)], ["a1"], [("a1", .obj [])],
   [("a1", .obj [])]⟩

/-- The invariant of claim C1: every advertised action has an input and
a results schema registered under its name. -/
def actionSchemasRegistered (st : ExtModState) : Prop :=
  ∀ a ∈ st.actions,
    includesSchema st.input_validator a = true
    ∧ includesSchema st.results_validator a = true

/-! ## Helper lemmas -/

theorem strContains_append_left (a s pat : String)
    (h : strContains s pat = true) : strContains (a ++ s) pat = true := by
  simp only [strContains, decide_eq_true_eq] at h ⊢
  obtain ⟨u, v, huv⟩ := h
  exact ⟨a.data ++ u, v, by rw [String.data_append, ← huv]; simp⟩

theorem strContains_append_right (s b pat : String)
    (h : strContains s pat = true) : strContains (s ++ b) pat = true := by
  simp only [strContains, decide_eq_true_eq] at h ⊢
  obtain ⟨u, v, huv⟩ := h
  exact ⟨u, v ++ b.data, by rw [String.data_append, ← huv]; simp⟩

theorem lookupField_self (k : String) (v : Json)
    (rest : List (String × Json)) :
    lookupField ((k, v) :: rest) k = some v := by
  simp [lookupField]

theorem includesSchema_cons_self (k : String) (j : Json)
    (v : List (String × Json)) : includesSchema ((k, j) :: v) k = true := by
  simp [includesSchema, lookupField]

theorem includesSchema_cons_of (k a : String) (j : Json)
    (v : List (String × Json)) (h : includesSchema v a = true) :
    includesSchema ((k, j) :: v) a = true := by
  simp only [includesSchema, lookupField] at h ⊢
  by_cases hk : k = a
  · simp [hk]
  · simp [hk, h]

theorem registerAction_preserves_inv (ok : SchemaOk) (st st' : ExtModState)
    (action : Json) (h : registerAction ok st action = .ok st')
    (hinv : actionSchemasRegistered st) : actionSchemasRegistered st' := by
  unfold registerAction at h
  split at h
  · cases h
  next action_name hname =>
    split at h
    next i r hi hr =>
      split at h
      · split at h
        · cases h
        · cases h
          intro a ha
          rcases List.mem_append.1 ha with ha | ha
          · obtain ⟨h1, h2⟩ := hinv a ha
            exact ⟨includesSchema_cons_of _ _ _ _ h1,
                   includesSchema_cons_of _ _ _ _ h2⟩
          · rcases List.mem_singleton.1 ha with rfl
            exact ⟨includesSchema_cons_self _ _ _,
                   includesSchema_cons_self _ _ _⟩
      · cases h
    next => cases h

theorem registerAction_ok_schemas (ok : SchemaOk) (st st' : ExtModState)
    (action : Json) (h : registerAction ok st action = .ok st') :
    (∀ i, action.get? "input" = some i → ok i = true)
    ∧ (∀ r, action.get? "results" = some r → ok r = true) := by
  unfold registerAction at h
  split at h
  · cases h
  next action_name hname =>
    split at h
    next i r hi hr =>
      split at h
      next hok =>
        constructor
        · intro i' hi'
          rw [hi] at hi'
          cases hi'
          exact hok.1
        · intro r' hr'
          rw [hr] at hr'
          cases hr'
          exact hok.2
      · cases h
    next => cases h

theorem registerAction_preserves_cfg (ok : SchemaOk) (st st' : ExtModState)
    (action : Json) (h : registerAction ok st action = .ok st') :
    st'.module_name = st.module_name ∧ st'.config = st.config
    ∧ st'.config_validator = st.config_validator := by
  unfold registerAction at h
  split at h
  · cases h
  next action_name hname =>
    split at h
    next i r hi hr =>
      split at h
      · split at h
        · cases h
        · cases h
          exact ⟨rfl, rfl, rfl⟩
      · cases h
    next => cases h

theorem registerActionsList_preserves_inv (ok : SchemaOk) (l : List Json) :
    ∀ st st', registerActionsList ok st l = .ok st' →
      actionSchemasRegistered st → actionSchemasRegistered st' := by
  induction l with
  | nil =>
      intro st st' h hinv
      unfold registerActionsList at h
      cases h
      exact hinv
  | cons action rest ih =>
      intro st st' h hinv
      unfold registerActionsList at h
      split at h
      next st1 h1 =>
        exact ih st1 st' h (registerAction_preserves_inv ok st st1 action h1 hinv)
      next => cases h

theorem registerActionsList_ok_schemas (ok : SchemaOk) (l : List Json) :
    ∀ st st', registerActionsList ok st l = .ok st' →
      ∀ act ∈ l,
        (∀ i, act.get? "input" = some i → ok i = true)
        ∧ (∀ r, act.get? "results" = some r → ok r = true) := by
  induction l with
  | nil =>
      intro st st' _ act hact
      cases hact
  | cons action rest ih =>
      intro st st' h act hact
      unfold registerActionsList at h
      split at h
      next st1 h1 =>
        rcases List.mem_cons.1 hact with rfl | hact
        · exact registerAction_ok_schemas ok st st1 act h1
        · exact ih st1 st' h act hact
      next => cases h

theorem registerActionsList_preserves_cfg (ok : SchemaOk) (l : List Json) :
    ∀ st st', registerActionsList ok st l = .ok st' →
      st'.module_name = st.module_name ∧ st'.config = st.config
      ∧ st'.config_validator = st.config_validator := by
  induction l with
  | nil =>
      intro st st' h
      unfold registerActionsList at h
      cases h
      exact ⟨rfl, rfl, rfl⟩
  | cons action rest ih =>
      intro st st' h
      unfold registerActionsList at h
      split at h
      next st1 h1 =>
        obtain ⟨m1, c1, v1⟩ := registerAction_preserves_cfg ok st st1 action h1
        obtain ⟨m2, c2, v2⟩ := ih st1 st' h
        exact ⟨m2.trans m1, c2.trans c1, v2.trans v1⟩
      next => cases h

theorem registerActions_preserves_inv (ok : SchemaOk) (st st' : ExtModState)
    (metadata : Json) (h : registerActions ok st metadata = .ok st')
    (hinv : actionSchemasRegistered st) : actionSchemasRegistered st' := by
  unfold registerActions at h
  split at h
  · cases h
  next l hl =>
    exact registerActionsList_preserves_inv ok l st st' h hinv

theorem externalModuleCtor_ok_elim (pj : JsonParser) (vm : MetadataValidator)
    (ok : SchemaOk) (module_name : String) (config metadata : Json)
    (exec : ExecResult) (st : ExtModState)
    (hmeta : getMetadata pj vm exec = .ok metadata)
    (hok : externalModuleCtor pj vm ok module_name config exec = .ok st) :
    ∃ st1,
      (match metadata.get? "configuration" with
       | some cm => registerConfiguration ok
           ⟨module_name, config, [], [], [], []⟩ cm
       | none => .ok ⟨module_name, config, [], [], [], []⟩)
        = Except.ok st1
      ∧ registerActions ok st1 metadata = .ok st := by
  unfold externalModuleCtor at hok
  rw [hmeta] at hok
  have hok' : (match
      (match metadata.get? "configuration" with
       | some cm => registerConfiguration ok
           ⟨module_name, config, [], [], [], []⟩ cm
       | none => .ok ⟨module_name, config, [], [], [], []⟩) with
     | Except.error e => Except.error e
     | Except.ok st1 => registerActions ok st1 metadata) = Except.ok st := hok
  rcases hc : metadata.get? "configuration" with _ | cm
  · rw [hc] at hok'
    exact ⟨⟨module_name, config, [], [], [], []⟩, rfl, by exact hok'⟩
  · rw [hc] at hok'
    have hok2 : (match registerConfiguration ok
          ⟨module_name, config, [], [], [], []⟩ cm with
        | Except.error e => Except.error e
        | Except.ok st1 => registerActions ok st1 metadata)
          = Except.ok st := by exact hok'
    rcases hreg : registerConfiguration ok
        ⟨module_name, config, [], [], [], []⟩ cm with e | st1
    · rw [hreg] at hok2
      cases hok2
    · rw [hreg] at hok2
      exact ⟨st1, by exact hreg, by exact hok2⟩

theorem externalModuleCtor_config_registered (pj : JsonParser)
    (vm : MetadataValidator) (ok : SchemaOk) (module_name : String)
    (config metadata cs : Json) (exec : ExecResult) (st : ExtModState)
    (hmeta : getMetadata pj vm exec = .ok metadata)
    (hcs : metadata.get? "configuration" = some cs)
    (hok : externalModuleCtor pj vm ok module_name config exec = .ok st) :
    st.module_name = module_name ∧ st.config = config
    ∧ st.config_validator = [(module_name, cs)] ∧ ok cs = true := by
  obtain ⟨st1, h1, h2⟩ := externalModuleCtor_ok_elim pj vm ok module_name
    config metadata exec st hmeta hok
  rw [hcs] at h1
  have h1' : registerConfiguration ok
      ⟨module_name, config, [], [], [], []⟩ cs = .ok st1 := h1
  unfold registerConfiguration at h1'
  by_cases hokcs : ok cs = true
  · rw [if_pos hokcs] at h1'
    cases Except.ok.inj h1'
    unfold registerActions at h2
    split at h2
    · cases h2
    next l hl =>
      obtain ⟨hm, hc, hv⟩ := registerActionsList_preserves_cfg ok l _ st h2
      exact ⟨hm, hc, hv, hokcs⟩
  · rw [if_neg hokcs] at h1'
    cases h1'

/-! ## Claims -/

/-- C9: every outbound response document built for a request — the
provisional response, the blocking response, the non-blocking response
and the PXP error — carries a `transaction_id` entry equal to the
request's transaction id. -/
theorem c9_responses_carry_transaction_id (request : ActionRequest)
    (results : Json) (job_id description : String) :
    (provisionalResponseData request).get? "transaction_id"
        = some (.str request.transaction_id)
    ∧ (blockingResponseData request results).get? "transaction_id"
        = some (.str request.transaction_id)
    ∧ (nonBlockingResponseData request results job_id).get? "transaction_id"
        = some (.str request.transaction_id)
    ∧ (pxpErrorData request description).get? "transaction_id"
        = some (.str request.transaction_id) :=
  ⟨rfl, rfl, rfl, rfl⟩

/-- C7: the action-arguments document contains an `input` entry equal to
the request's params; a `configuration` entry exactly when the module
config is non-empty (and then equal to it); and an `output_files` entry
exactly when the request is non-blocking, whose three fields are the
paths `<results_dir>/stdout`, `<results_dir>/stderr` and
`<results_dir>/exitcode`. -/
theorem c7_action_arguments_shape (config : Json) (request : ActionRequest) :
    (getActionArguments config request).get? "input" = some request.params
    ∧ (getActionArguments config request).get? "configuration"
        = (if config.isEmpty then none else some config)
    ∧ (getActionArguments config request).get? "output_files"
        = (if request.rtype = RequestType.NonBlocking then
             some (Json.obj
               [("stdout", .str (request.results_dir ++ "/stdout")),
                ("stderr", .str (request.results_dir ++ "/stderr")),
                ("exitcode", .str (request.results_dir ++ "/exitcode"))])
           else none) := by
  unfold getActionArguments Json.get?
  rcases hC : config.isEmpty <;> rcases hT : request.rtype <;>
    simp [hC, hT, lookupField]

/-- C10: `expandAsDoneByShell` returns the empty string when the
shell-style word expansion fails, and otherwise returns only the first
word of the expansion, discarding any further words. -/
theorem c10_expand_first_word (we : WordExp) (txt : String) :
    (we txt = none → expandAsDoneByShell we txt = some "")
    ∧ (∀ w rest, we txt = some (w :: rest) →
        expandAsDoneByShell we txt = some w) := by
  constructor
  · intro h; simp [expandAsDoneByShell, h]
  · intro w rest h; simp [expandAsDoneByShell, h]

/-- Witness for C10 at concrete inputs. -/
theorem c10_expand_first_word_witness :
    expandAsDoneByShell weW "" = some ""
    ∧ expandAsDoneByShell weW "word" = some "word" :=
  ⟨(c10_expand_first_word weW "").1 (by decide),
   (c10_expand_first_word weW "word").2 "word" ["more"] (by decide)⟩

/-- C3: empty captured stdout with exit code 0 yields an `ActionOutcome`
whose results are the JSON value `null`, not a `ProcessingError` (the
library fact that the text `null` parses to the JSON value `null` is the
hypothesis). -/
theorem c3_empty_stdout_exit_zero (pj : JsonParser) (request : ActionRequest)
    (err_txt : String) (hnull : pj "null" = .ok Json.null) :
    processRequestOutcome pj request 0 "" err_txt
      = .ok ⟨0, err_txt, "", Json.null⟩ := by
  simp [processRequestOutcome, show ("" : String).isEmpty = true from rfl, hnull]

/-- Witness for C3 at concrete inputs. -/
theorem c3_empty_stdout_exit_zero_witness :
    processRequestOutcome pjW reqW 0 "" "" = .ok ⟨0, "", "", Json.null⟩ :=
  c3_empty_stdout_exit_zero pjW reqW "" rfl

/-- C2 as stated is false on the code: with a JSON parser that (like the
real library) parses the text `null`, an empty stdout together with the
non-zero exit code 1 still yields an `ActionOutcome` — no
`ProcessingError` is raised, because `processRequestOutcome` never
consults the exit code when parsing. -/
theorem c2_counterexample :
    pjW "null" = .ok Json.null
    ∧ (1 : Int) ≠ 0
    ∧ processRequestOutcome pjW reqW 1 "" "" = .ok ⟨1, "", "", Json.null⟩ :=
  ⟨rfl, by decide, rfl⟩

/-- C2 (amended): when the captured stdout is empty, outcome parsing
substitutes the text `null` regardless of the exit code; if the parser
accepts that text (as the real library does) the result is an
`ActionOutcome` carrying the parsed value, and only if the parser
rejects it does a `ProcessingError` arise, whose message contains
"returned no output on stdout". -/
theorem c2_amended_empty_stdout (pj : JsonParser) (request : ActionRequest)
    (exit_code : Int) (err_txt : String) :
    (∀ v, pj "null" = .ok v →
        processRequestOutcome pj request exit_code "" err_txt
          = .ok ⟨exit_code, err_txt, "", v⟩)
    ∧ (∀ e, pj "null" = .error e →
        ∃ pe, processRequestOutcome pj request exit_code "" err_txt
            = .error pe
          ∧ strContains pe.msg "returned no output on stdout" = true) := by
  constructor
  · intro v h
    simp [processRequestOutcome, show ("" : String).isEmpty = true from rfl, h]
  · intro e h
    unfold processRequestOutcome
    rw [show (if ("" : String).isEmpty then "null" else "") = "null" from rfl, h]
    refine ⟨_, rfl, ?_⟩
    apply strContains_append_right
    apply strContains_append_left
    decide

/-- Witness for C2 (amended) at concrete inputs, one per branch. -/
theorem c2_amended_empty_stdout_witness :
    processRequestOutcome pjW reqW 1 "" "" = .ok ⟨1, "", "", Json.null⟩
    ∧ ∃ pe, processRequestOutcome pjNone reqW 1 "" "" = .error pe
        ∧ strContains pe.msg "returned no output on stdout" = true :=
  ⟨(c2_amended_empty_stdout pjW reqW 1 "").1 Json.null rfl,
   (c2_amended_empty_stdout pjNone reqW 1 "").2 "bad input" rfl⟩

/-- C4: a non-blocking call whose child exits with code 5 raises
`ProcessingError { "failed to write output on file" }`; the result does
not depend on the filesystem (the result files are never read) nor on
anything the child produced on its captured stdout or stderr. -/
theorem c4_exit_code_five (pj : JsonParser) (fs : FileSystem)
    (request : ActionRequest) (out err : String) :
    callNonBlockingAction pj fs request ⟨out, err, 5⟩
      = .error ⟨"failed to write output on file"⟩ := by
  simp [callNonBlockingAction, EXTERNAL_MODULE_FILE_ERROR_EC]

/-- C5: metadata probing fails in order: a non-empty probe stderr aborts
with `LoadingError { "failed to load external module metadata" }` before
any parsing; otherwise a stdout that is not valid JSON aborts with a
message beginning "metadata is not in a valid JSON format: "; otherwise
a document failing the module-metadata schema aborts with a message
beginning "metadata validation failure: ". -/
theorem c5_metadata_error_order (pj : JsonParser) (vm : MetadataValidator)
    (exec : ExecResult) :
    (exec.error.isEmpty = false →
        getMetadata pj vm exec
          = .error ⟨"failed to load external module metadata"⟩)
    ∧ (∀ e, exec.error.isEmpty = true → pj exec.output = .error e →
        getMetadata pj vm exec
          = .error ⟨"metadata is not in a valid JSON format: " ++ e⟩)
    ∧ (∀ md e, exec.error.isEmpty = true → pj exec.output = .ok md →
        vm md = some e →
        getMetadata pj vm exec
          = .error ⟨"metadata validation failure: " ++ e⟩) := by
  refine ⟨?_, ?_, ?_⟩
  · intro h; simp [getMetadata, h]
  · intro e hs hp; simp [getMetadata, hs, hp]
  · intro md e hs hp hv; simp [getMetadata, hs, hp, hv]

/-- Witness for C5 at concrete inputs, one per branch. -/
theorem c5_metadata_error_order_witness :
    getMetadata pjW (fun _ => none) ⟨"null", "oops", 0⟩
        = .error ⟨"failed to load external module metadata"⟩
    ∧ getMetadata pjNone (fun _ => none) ⟨"junk", "", 0⟩
        = .error ⟨"metadata is not in a valid JSON format: " ++ "bad input"⟩
    ∧ getMetadata pjW (fun _ => some "missing actions") ⟨"null", "", 0⟩
        = .error ⟨"metadata validation failure: " ++ "missing actions"⟩ :=
  ⟨(c5_metadata_error_order pjW (fun _ => none) ⟨"null", "oops", 0⟩).1 rfl,
   (c5_metadata_error_order pjNone (fun _ => none) ⟨"junk", "", 0⟩).2.1
     "bad input" rfl rfl,
   (c5_metadata_error_order pjW (fun _ => some "missing actions")
     ⟨"null", "", 0⟩).2.2 Json.null "missing actions" rfl rfl rfl⟩

/-- C8: when reading back a completed non-blocking job, a missing or
unreadable stderr file is non-fatal and yields an empty captured stderr;
a missing stdout file is non-fatal and yields an empty captured stdout;
a stdout file that exists but cannot be read raises
`ProcessingError { "failed to read" }`. -/
theorem c8_read_back_result_files (fs : FileSystem)
    (out_file err_file : String) :
    ((fs.pathExists err_file = false ∨ fs.readFile err_file = none) →
        (fs.pathExists out_file = false →
          readNonBlockingOutcome fs out_file err_file = .ok ("", ""))
        ∧ (∀ o, fs.pathExists out_file = true → fs.readFile out_file = some o →
          readNonBlockingOutcome fs out_file err_file = .ok (o, "")))
    ∧ (fs.pathExists out_file = false →
        ∃ err_txt, readNonBlockingOutcome fs out_file err_file
          = .ok ("", err_txt))
    ∧ (fs.pathExists out_file = true → fs.readFile out_file = none →
        readNonBlockingOutcome fs out_file err_file
          = .error ⟨"failed to read"⟩) := by
  refine ⟨?_, ?_, ?_⟩
  · intro he
    have herr : (if fs.pathExists err_file then
        (match fs.readFile err_file with
         | some txt => txt
         | none => "") else "") = "" := by
      rcases he with he | he <;> simp [he]
    constructor
    · intro ho; simp [readNonBlockingOutcome, herr, ho]
    · intro o ho hr; simp [readNonBlockingOutcome, herr, ho, hr]
  · intro ho
    refine ⟨if fs.pathExists err_file then
        (match fs.readFile err_file with
         | some txt => txt
         | none => "") else "", ?_⟩
    simp [readNonBlockingOutcome, ho]
  · intro ho hr
    simp [readNonBlockingOutcome, ho, hr]

/-- Witness for C8 at concrete filesystems, one per branch. -/
theorem c8_read_back_result_files_witness :
    readNonBlockingOutcome ⟨fun _ => false, fun _ => none⟩ "d/stdout" "d/stderr"
        = .ok ("", "")
    ∧ (∃ err_txt,
        readNonBlockingOutcome ⟨fun _ => false, fun _ => none⟩ "d/stdout" "d/stderr"
          = .ok ("", err_txt))
    ∧ readNonBlockingOutcome ⟨fun _ => true, fun _ => none⟩ "d/stdout" "d/stderr"
        = .error ⟨"failed to read"⟩ :=
  ⟨((c8_read_back_result_files ⟨fun _ => false, fun _ => none⟩
      "d/stdout" "d/stderr").1 (Or.inl rfl)).1 rfl,
   (c8_read_back_result_files ⟨fun _ => false, fun _ => none⟩
      "d/stdout" "d/stderr").2.1 rfl,
   (c8_read_back_result_files ⟨fun _ => true, fun _ => none⟩
      "d/stdout" "d/stderr").2.2 rfl rfl⟩

/-- C1: for every successfully loaded external module, every action name
it advertises in its actions list has an input schema and a results
schema registered under that name; moreover success requires every
advertised action's input and results schema to have parsed, so a schema
that fails to parse forces the whole load to end in a `LoadingError`,
whose `Except.error` carries no module state — no action of the module
remains registered. -/
theorem c1_loaded_module_schemas (pj : JsonParser) (vm : MetadataValidator)
    (ok : SchemaOk) (module_name : String) (config metadata : Json)
    (exec : ExecResult) (acts : List Json) (st : ExtModState)
    (hmeta : getMetadata pj vm exec = .ok metadata)
    (hacts : metadata.getArray? "actions" = some acts)
    (hok : externalModuleCtor pj vm ok module_name config exec = .ok st) :
    (∀ a ∈ st.actions,
        includesSchema st.input_validator a = true
        ∧ includesSchema st.results_validator a = true)
    ∧ (∀ act ∈ acts,
        (∀ i, act.get? "input" = some i → ok i = true)
        ∧ (∀ r, act.get? "results" = some r → ok r = true)) := by
  obtain ⟨st1, h1, h2⟩ := externalModuleCtor_ok_elim pj vm ok module_name
    config metadata exec st hmeta hok
  have hacts1 : st1.actions = [] := by
    rcases hc : metadata.get? "configuration" with _ | cm
    · rw [hc] at h1
      have h1' : Except.ok (⟨module_name, config, [], [], [], []⟩ : ExtModState)
          = Except.ok st1 := h1
      cases Except.ok.inj h1'
      rfl
    · rw [hc] at h1
      have h1' : registerConfiguration ok
          ⟨module_name, config, [], [], [], []⟩ cm = .ok st1 := h1
      unfold registerConfiguration at h1'
      by_cases hok1 : ok cm = true
      · rw [if_pos hok1] at h1'
        cases Except.ok.inj h1'
        rfl
      · rw [if_neg hok1] at h1'
        cases h1'
  have hinv1 : actionSchemasRegistered st1 := by
    intro a ha
    rw [hacts1] at ha
    cases ha
  unfold registerActions at h2
  rw [hacts] at h2
  have h2' : registerActionsList ok st1 acts = .ok st := h2
  exact ⟨registerActionsList_preserves_inv ok acts st1 st h2' hinv1,
         registerActionsList_ok_schemas ok acts st1 st h2'⟩

/-- Witness for C1: a concrete module advertising action `a1` loads
successfully and has both schemas registered under `a1`. -/
theorem c1_loaded_module_schemas_witness :
    includesSchema stW.input_validator "a1" = true
    ∧ includesSchema stW.results_validator "a1" = true :=
  (c1_loaded_module_schemas pjMetaW vmW okW "modW" Json.null metaW execW
      [actW] stW rfl rfl rfl).1 "a1" (by simp [stW])

/-- C6: loading with a non-empty config whose metadata includes a
`configuration` entry registers that entry as a schema under the
module's name; whenever the load succeeds, the supplied config was
validated against that schema, and a failure of either the schema
registration or the config validation ends the load in a
`LoadingError`. -/
theorem c6_config_schema_registered (pj : JsonParser) (vm : MetadataValidator)
    (ok : SchemaOk) (va : Validates) (module_name : String)
    (config metadata cs : Json) (exec : ExecResult)
    (hmeta : getMetadata pj vm exec = .ok metadata)
    (hcs : metadata.get? "configuration" = some cs)
    (hne : config.isEmpty = false) :
    (∀ st, loadExternalModule pj vm ok va module_name config exec = .ok st →
        lookupField st.config_validator module_name = some cs
        ∧ va config cs = true)
    ∧ (ok cs = false →
        ∃ e, loadExternalModule pj vm ok va module_name config exec
          = .error e)
    ∧ (va config cs = false →
        ∃ e, loadExternalModule pj vm ok va module_name config exec
          = .error e) := by
  refine ⟨?_, ?_, ?_⟩
  · intro st hst
    rcases hctor : externalModuleCtor pj vm ok module_name config exec
        with e | st0
    · exfalso
      unfold loadExternalModule at hst
      rw [hctor] at hst
      cases hst
    · obtain ⟨hm, hc, hv, _⟩ := externalModuleCtor_config_registered pj vm ok
        module_name config metadata cs exec st0 hmeta hcs hctor
      unfold loadExternalModule at hst
      rw [hctor] at hst
      have hst' : (match validateConfiguration va st0 with
          | Except.ok _ => Except.ok st0
          | Except.error e => Except.error (⟨e⟩ : LoadingError))
            = Except.ok st := hst
      rcases hval : validateConfiguration va st0 with e | u
      · rw [hval] at hst'
        cases hst'
      · rw [hval] at hst'
        cases Except.ok.inj hst'
        constructor
        · rw [hv]
          simp [lookupField]
        · unfold validateConfiguration at hval
          rw [hm, hv, hc] at hval
          rw [lookupField_self] at hval
          have hval' : (if va config cs = true then Except.ok ()
              else Except.error "validation failure") = Except.ok u := by
            exact hval
          by_cases hva : va config cs = true
          · exact hva
          · rw [if_neg hva] at hval'
            cases hval'
  · intro hbad
    rcases hctor : externalModuleCtor pj vm ok module_name config exec
        with e | st0
    · exact ⟨e, by unfold loadExternalModule; rw [hctor]⟩
    · exfalso
      obtain ⟨_, _, _, hok1⟩ := externalModuleCtor_config_registered pj vm ok
        module_name config metadata cs exec st0 hmeta hcs hctor
      rw [hbad] at hok1
      cases hok1
  · intro hva
    rcases hctor : externalModuleCtor pj vm ok module_name config exec
        with e | st0
    · exact ⟨e, by unfold loadExternalModule; rw [hctor]⟩
    · obtain ⟨hm, hc, hv, _⟩ := externalModuleCtor_config_registered pj vm ok
        module_name config metadata cs exec st0 hmeta hcs hctor
      refine ⟨⟨"validation failure"⟩, ?_⟩
      have hval : validateConfiguration va st0 = .error "validation failure" := by
        unfold validateConfiguration
        rw [hm, hv, hc]
        simp [lookupField, hva]
      unfold loadExternalModule
      rw [hctor]
      show (match validateConfiguration va st0 with
          | Except.ok _ => Except.ok st0
          | Except.error e => Except.error (⟨e⟩ : LoadingError))
            = Except.error ⟨"validation failure"⟩
      rw [hval]

/-- Witness for C6: a concrete module with a `configuration` entry and a
non-empty config loads successfully, its configuration schema registered
under the module's name and the config validated. -/
theorem c6_config_schema_registered_witness :
    lookupField stCfgW.config_validator "modC" = some csW
    ∧ vaW cfgW csW = true :=
  (c6_config_schema_registered pjMetaCfgW vmW okW vaW "modC" cfgW metaCfgW
      csW execCfgW rfl rfl rfl).1 stCfgW rfl

end PXPAgent
